import Mathlib

/-!
Verification of the scheduler-server core (scheduler_server.go).

The Go source persists each task as a Redis hash with fields
{taskProto, schedulingMetadataProto, queuedAtUsec, attemptCount, claimed?}
and manipulates it through plain HSET/HMGET/HDEL/HINCRBY calls plus three
server-side atomic scripts (acquire claim, release claim, delete claimed).
We embed that state shallowly: the Redis database restricted to the keys the
scheduler touches is a record holding an association list of task rows, an
association list of per-pool unclaimed-task sorted sets, and the set of
in-memory node-pool objects of this scheduler instance.  Every operation is
translated control-flow-faithfully from the source; mutation is explicit
state passing, and fallible calls return an Except paired with the
post-call store (Redis writes that happen before an error is reported are
kept, exactly as in the source).

Time is passed in explicitly (seconds for the lease loop, microseconds for
queuedAt).  Proto (un)marshalling is modelled as the identity on the decoded
record, so scheduling metadata is stored decoded.  TTLs (taskTTL,
unclaimedTaskSetTTL) are not modelled: no claim refers to expiry, and in the
sequential embedding the Expire immediately after a successful HSET always
finds its key, so the DataLoss branch of insertTask is unreachable here.
-/

namespace SchedulerServer

/-- gRPC status codes produced by the util/status helpers used in the source. -/
inductive StatusCode where
  | invalidArgument
  | failedPrecondition
  | alreadyExists
  | notFound
  | unavailable
  | resourceExhausted
  | permissionDenied
  | unauthenticated
  | canceled
  | dataLoss
  | internal
  deriving DecidableEq, Repr

instance {ε α : Type} [DecidableEq ε] [DecidableEq α] : DecidableEq (Except ε α)
  | .error a, .error b =>
    if h : a = b then isTrue (by rw [h]) else isFalse (by intro c; cases c; exact h rfl)
  | .error _, .ok _ => isFalse (by intro c; cases c)
  | .ok _, .error _ => isFalse (by intro c; cases c)
  | .ok a, .ok b =>
    if h : a = b then isTrue (by rw [h]) else isFalse (by intro c; cases c; exact h rfl)

/-- scpb.TaskSize: estimated resources of a task. -/
structure TaskSize where
  estimatedMemoryBytes : Int
  estimatedMilliCpu : Int
  deriving DecidableEq, Repr

/-- scpb.SchedulingMetadata (the fields the scheduler core reads). -/
structure SchedulingMetadata where
  os : String
  arch : String
  pool : String
  executorGroupId : String
  taskSize : Option TaskSize
  deriving DecidableEq, Repr

/--
One Redis task hash.  insertTask always creates all four data fields at
once and nothing ever deletes an individual data field, so a live hash
always carries all four; only the claimed field comes and goes, hence it is
a Bool (field present iff true), matching the comment on the task struct.
-/
structure TaskHash where
  taskProto : String
  schedulingMetadataProto : SchedulingMetadata
  queuedAtUsec : Int
  attemptCount : Int
  claimed : Bool
  deriving DecidableEq, Repr

/-- nodePoolKey from the source. -/
structure NodePoolKey where
  groupID : String
  os : String
  arch : String
  pool : String
  deriving DecidableEq, Repr

def NodePoolKey.redisKeySuffix (k : NodePoolKey) : String :=
  (if k.groupID ≠ "" then k.groupID ++ "-" else "") ++ k.os ++ "-" ++ k.arch ++ "-" ++ k.pool

def NodePoolKey.redisPoolKey (k : NodePoolKey) : String :=
  "executorPool/" ++ k.redisKeySuffix

def NodePoolKey.redisUnclaimedTasksKey (k : NodePoolKey) : String :=
  "unclaimedTasks/" ++ k.redisKeySuffix

/--
The shared store plus the per-scheduler in-memory pool map.  tasks maps the
Redis key "task/ID" to its hash; unclaimed maps a pool's
redisUnclaimedTasksKey to its sorted set (held as a (score, member) list
kept sorted by zadd); pools lists the nodePoolKey entries present in this
scheduler instance's in-memory pools map (s.pools), which gates the
unclaimed-set removal in LeaseTask.
-/
structure Store where
  tasks : List (String × TaskHash)
  unclaimed : List (String × List (Int × String))
  pools : List NodePoolKey
  deriving DecidableEq, Repr

/-- Association-list lookup (a Redis key read). -/
def hLookup (l : List (String × TaskHash)) (k : String) : Option TaskHash :=
  match l with
  | [] => none
  | (k1, v) :: rest => if k1 = k then some v else hLookup rest k

/-- Overwrite the row at key k (append if absent). -/
def hSetRow (l : List (String × TaskHash)) (k : String) (v : TaskHash) :
    List (String × TaskHash) :=
  match l with
  | [] => [(k, v)]
  | (k1, v1) :: rest => if k1 = k then (k, v) :: rest else (k1, v1) :: hSetRow rest k v

/-- Delete the key k ("DEL"). -/
def hDelKey (l : List (String × TaskHash)) (k : String) : List (String × TaskHash) :=
  match l with
  | [] => []
  | (k1, v1) :: rest => if k1 = k then rest else (k1, v1) :: hDelKey rest k

theorem hLookup_hSetRow_self (l : List (String × TaskHash)) (k : String) (v : TaskHash) :
    hLookup (hSetRow l k v) k = some v := by
  induction l with
  | nil => simp [hSetRow, hLookup]
  | cons hd tl ih =>
    obtain ⟨k1, v1⟩ := hd
    by_cases h : k1 = k <;> simp [hSetRow, hLookup, h, ih]

theorem hSetRow_hSetRow (l : List (String × TaskHash)) (k : String) (v v' : TaskHash) :
    hSetRow (hSetRow l k v) k v' = hSetRow l k v' := by
  induction l with
  | nil => simp [hSetRow]
  | cons hd tl ih =>
    obtain ⟨k1, v1⟩ := hd
    by_cases h : k1 = k <;> simp [hSetRow, h, ih]

def Store.setRow (st : Store) (k : String) (v : TaskHash) : Store :=
  { st with tasks := hSetRow st.tasks k v }

def redisKeyForTask (taskID : String) : String :=
  "task/" ++ taskID

/-!  ### Task store operations (§4.1)  -/

/--
insertTask.  The Go code issues a single HSET with the four data fields and
inspects the returned count of newly created fields: on a fresh key all four
fields are new (count 4 ≠ 0) and the function proceeds to set the TTL; on an
existing task hash all four fields already exist, so HSET overwrites their
values, reports 0 new fields and the function returns AlreadyExists — after
the overwrite has already happened on the server.  The claimed field is not
part of the HSET and survives.  The result carries the post-HSET store even
on the error path, exactly as in Redis.
-/
def insertTask (st : Store) (taskID : String) (metadata : SchedulingMetadata)
    (serializedTask : String) (nowUsec : Int) : Except StatusCode Unit × Store :=
  match hLookup st.tasks (redisKeyForTask taskID) with
  | some old =>
    -- all four data fields already present: HSET overwrites them, creates 0
    (.error .alreadyExists,
      st.setRow (redisKeyForTask taskID)
        { taskProto := serializedTask
          schedulingMetadataProto := metadata
          queuedAtUsec := nowUsec
          attemptCount := 0
          claimed := old.claimed })
  | none =>
    -- 4 new fields created; Expire then finds the key, so no DataLoss
    (.ok (),
      st.setRow (redisKeyForTask taskID)
        { taskProto := serializedTask
          schedulingMetadataProto := metadata
          queuedAtUsec := nowUsec
          attemptCount := 0
          claimed := false })

/-- The decoded task row (persistedTask in the source). -/
structure PersistedTask where
  taskID : String
  metadata : SchedulingMetadata
  serializedTask : String
  queuedAtUsec : Int
  attemptCount : Int
  deriving DecidableEq, Repr

/-- readTask: HMGET of the four data fields; NotFound when the hash is
missing; the decode steps always succeed in the embedding. -/
def readTask (st : Store) (taskID : String) : Except StatusCode PersistedTask :=
  match hLookup st.tasks (redisKeyForTask taskID) with
  | none => .error .notFound
  | some h =>
    .ok { taskID := taskID
          metadata := h.schedulingMetadataProto
          serializedTask := h.taskProto
          queuedAtUsec := h.queuedAtUsec
          attemptCount := h.attemptCount }

/-- The redisAcquireClaim script: if the key exists and the claimed field is
absent, set claimed and return 1, else return 0.  Returns the script result
and the post-script task table. -/
def redisAcquireClaim (tasks : List (String × TaskHash)) (key : String) :
    Int × List (String × TaskHash) :=
  match hLookup tasks key with
  | some h => if h.claimed then (0, tasks) else (1, hSetRow tasks key { h with claimed := true })
  | none => (0, tasks)

/-- The redisReleaseClaim script: if claimed is set, remove it and return 1. -/
def redisReleaseClaim (tasks : List (String × TaskHash)) (key : String) :
    Int × List (String × TaskHash) :=
  match hLookup tasks key with
  | some h => if h.claimed then (1, hSetRow tasks key { h with claimed := false }) else (0, tasks)
  | none => (0, tasks)

/-- The redisDeleteClaimedTask script: if claimed is set, DEL the key. -/
def redisDeleteClaimedTask (tasks : List (String × TaskHash)) (key : String) :
    Int × List (String × TaskHash) :=
  match hLookup tasks key with
  | some h => if h.claimed then (1, hDelKey tasks key) else (0, tasks)
  | none => (0, tasks)

/-- HINCRBY on the attemptCount field.  Its only caller (claimTask) runs it
right after the acquire script succeeded, so the key is always present
there; on a missing key HINCRBY would create the hash, which a full task
hash record cannot represent, so that unreachable branch leaves the table
unchanged. -/
def hIncrAttemptCount (tasks : List (String × TaskHash)) (key : String) :
    List (String × TaskHash) :=
  match hLookup tasks key with
  | some h => hSetRow tasks key { h with attemptCount := h.attemptCount + 1 }
  | none => tasks

/-- claimTask: run the acquire script; a script result other than 1 is
NotFound ("unable to claim"); on success increment attemptCount by 1. -/
def claimTask (st : Store) (taskID : String) : Except StatusCode Unit × Store :=
  let r := redisAcquireClaim st.tasks (redisKeyForTask taskID)
  if r.1 ≠ 1 then
    (.error .notFound, { st with tasks := r.2 })
  else
    (.ok (), { st with tasks := hIncrAttemptCount r.2 (redisKeyForTask taskID) })

/-- unclaimTask: release script; result other than 1 is NotFound. -/
def unclaimTask (st : Store) (taskID : String) : Except StatusCode Unit × Store :=
  let r := redisReleaseClaim st.tasks (redisKeyForTask taskID)
  if r.1 ≠ 1 then
    (.error .notFound, { st with tasks := r.2 })
  else
    (.ok (), { st with tasks := r.2 })

/-- deleteClaimedTask: delete script; result other than 1 is NotFound. -/
def deleteClaimedTask (st : Store) (taskID : String) : Except StatusCode Unit × Store :=
  let r := redisDeleteClaimedTask st.tasks (redisKeyForTask taskID)
  if r.1 ≠ 1 then
    (.error .notFound, { st with tasks := r.2 })
  else
    (.ok (), { st with tasks := r.2 })

/-!  ### Node pool (§4.2)  -/

/-- executionNode: the fields the fit test and dispatch loop read. -/
structure ExecutionNode where
  executorID : String
  assignableMemoryBytes : Int
  assignableMilliCpu : Int
  schedulerHostPort : String
  deriving DecidableEq, Repr

/-- Go's int64(f) conversion of a (here exactly represented) real value:
truncation toward zero. -/
def goTrunc (x : ℚ) : Int :=
  if 0 ≤ x then Rat.floor x else Rat.ceil x

/-- The per-node fit test from NodeCount:
int64(float64(mem)·R) ≥ size.mem ∧ int64(float64(cpu)·R) ≥ size.cpu.
The over-subscription ratio R (tasksize.MaxResourceCapacityRatio, a config
constant defined outside this file's source) is a parameter, and the float64
arithmetic is carried out exactly over ℚ with Go's conversion truncation. -/
def nodeFits (R : ℚ) (taskSize : TaskSize) (n : ExecutionNode) : Bool :=
  taskSize.estimatedMemoryBytes ≤ goTrunc ((n.assignableMemoryBytes : ℚ) * R) &&
  taskSize.estimatedMilliCpu ≤ goTrunc ((n.assignableMilliCpu : ℚ) * R)

/--
NodeCount, applied to the cached node list (the claim is stated over the
cached list; RefreshNodes only replaces that list before this runs and is
not itself re-modelled).  Unavailable when the pool is empty; otherwise
count the fitting nodes; Unavailable when none fits.
-/
def NodeCount (nodes : List ExecutionNode) (R : ℚ) (taskSize : TaskSize) :
    Except StatusCode Nat :=
  if nodes.length = 0 then .error .unavailable
  else
    let fitCount := nodes.countP (fun n => nodeFits R taskSize n)
    if fitCount = 0 then .error .unavailable
    else .ok fitCount

/-- The fit count exactly as the specification words it: executors whose
capacities times R are at least the task's requirements, compared over ℚ
without any truncation. -/
def specFitCount (nodes : List ExecutionNode) (R : ℚ) (taskSize : TaskSize) : Nat :=
  nodes.countP (fun n =>
    decide ((taskSize.estimatedMemoryBytes : ℚ) ≤ (n.assignableMemoryBytes : ℚ) * R ∧
            (taskSize.estimatedMilliCpu : ℚ) ≤ (n.assignableMilliCpu : ℚ) * R))

/-!  ### Unclaimed-task sorted set  -/

/-- Redis sorted-set order on (score, member): by score, ties broken
lexicographically by member. -/
def zLe (x y : Int × String) : Prop :=
  x.1 < y.1 ∨ (x.1 = y.1 ∧ x.2 ≤ y.2)

instance : DecidableRel zLe := fun x y => by
  unfold zLe; infer_instance

instance : IsTotal (Int × String) zLe :=
  ⟨fun x y => by
    rcases lt_trichotomy x.1 y.1 with h | h | h
    · exact Or.inl (Or.inl h)
    · rcases le_total x.2 y.2 with h2 | h2
      · exact Or.inl (Or.inr ⟨h, h2⟩)
      · exact Or.inr (Or.inr ⟨h.symm, h2⟩)
    · exact Or.inr (Or.inl h)⟩

instance : IsTrans (Int × String) zLe :=
  ⟨fun x y z hxy hyz => by
    rcases hxy with h1 | ⟨e1, s1⟩
    · rcases hyz with h2 | ⟨e2, s2⟩
      · exact Or.inl (h1.trans h2)
      · exact Or.inl (e2 ▸ h1)
    · rcases hyz with h2 | ⟨e2, s2⟩
      · exact Or.inl (e1 ▸ h2)
      · exact Or.inr ⟨e1.trans e2, s1.trans s2⟩⟩

/-- ZADD of a single (score, member): if the member is already present its
score is updated, i.e. the member is re-inserted at the position of its new
score. -/
def zAdd (set : List (Int × String)) (score : Int) (member : String) :
    List (Int × String) :=
  (set.filter (fun e => e.2 ≠ member)).orderedInsert zLe (score, member)

/-- ZCARD. -/
def zCard (set : List (Int × String)) : Int :=
  set.length

/-- ZREM of a single member. -/
def zRem (set : List (Int × String)) (member : String) : List (Int × String) :=
  set.filter (fun e => e.2 ≠ member)

/-- ZREMRANGEBYRANK key 0 stop: drop the members at ranks 0..stop
(inclusive), i.e. the (stop+1) lowest-scored members. -/
def zRemRangeByRankOldest (set : List (Int × String)) (stop : Int) :
    List (Int × String) :=
  set.drop (stop + 1).toNat

def maxUnclaimedTasksTracked : Int := 10000

/--
AddUnclaimedTask on a pool's sorted set: ZADD at score = now, extend the
TTL (not modelled), then read ZCARD and, if over the bound, trim the oldest
by rank with ZREMRANGEBYRANK key 0 (n - maxUnclaimedTasksTracked - 1).
-/
def AddUnclaimedTask (set : List (Int × String)) (taskID : String) (now : Int) :
    List (Int × String) :=
  let s1 := zAdd set now taskID
  let n := zCard s1
  if n > maxUnclaimedTasksTracked then
    zRemRangeByRankOldest s1 (n - maxUnclaimedTasksTracked - 1)
  else
    s1

/-- Association lookup in the unclaimed map (missing key = empty set). -/
def zsLookup (l : List (String × List (Int × String))) (k : String) :
    List (Int × String) :=
  match l with
  | [] => []
  | (k1, v) :: rest => if k1 = k then v else zsLookup rest k

/-- Store the set back under its key. -/
def zsSet (l : List (String × List (Int × String))) (k : String)
    (v : List (Int × String)) : List (String × List (Int × String)) :=
  match l with
  | [] => [(k, v)]
  | (k1, v1) :: rest => if k1 = k then (k, v) :: rest else (k1, v1) :: zsSet rest k v

/-- Store-level AddUnclaimedTask for a pool key. -/
def Store.addUnclaimedTask (st : Store) (key : NodePoolKey) (taskID : String)
    (now : Int) : Store :=
  let k := key.redisUnclaimedTasksKey
  { st with unclaimed := zsSet st.unclaimed k (AddUnclaimedTask (zsLookup st.unclaimed k) taskID now) }

/-- Store-level RemoveUnclaimedTask for a pool key. -/
def Store.removeUnclaimedTask (st : Store) (key : NodePoolKey) (taskID : String) : Store :=
  let k := key.redisUnclaimedTasksKey
  { st with unclaimed := zsSet st.unclaimed k (zRem (zsLookup st.unclaimed k) taskID) }

/-!  ### Dispatcher (§4.3)  -/

def probesPerTask : Nat := 3
def maxTaskAttemptCount : Int := 5

structure EnqueueOpts where
  numReplicas : Nat
  maxAttempts : Nat
  alwaysScheduleLocally : Bool
  deriving DecidableEq, Repr

def minInt (i j : Nat) : Nat :=
  if i < j then i else j

/-- Outcome of the probe loop of enqueueTaskReservations. -/
inductive ProbeResult where
  | completed (probesSent : Nat)
  | failed (e : StatusCode)
  | pending
  deriving DecidableEq, Repr

/-- Outcome of a top-level RPC. -/
inductive RpcResult where
  | ok
  | failed (e : StatusCode)
  | pending
  deriving DecidableEq, Repr

def ProbeResult.toRpc : ProbeResult → RpcResult
  | .completed _ => .ok
  | .failed e => .failed e
  | .pending => .pending

/--
The dispatch loop of enqueueTaskReservations: while probesSent < probeCount,
increment attempts, fail with ResourceExhausted once attempts exceeds a set
maxAttempts, otherwise probe one node and count the probe if it succeeded.
Which node each iteration probes (the preferred connected executor on the
first iteration, then the router-ranked candidate list cycled through by
sampleIndex) only determines the target of the EnqueueTaskReservation call;
the success of each such call is abstracted as an oracle list with one Bool
per loop iteration.  When the oracle runs out the loop is still running
(pending).
-/
def probeLoop (maxAttempts probeCount : Nat) (outcomes : List Bool)
    (attempts probesSent : Nat) : ProbeResult :=
  match outcomes with
  | [] =>
    if probeCount ≤ probesSent then .completed probesSent
    else if 0 < maxAttempts ∧ maxAttempts < attempts + 1 then .failed .resourceExhausted
    else .pending
  | o :: rest =>
    if probeCount ≤ probesSent then .completed probesSent
    else if 0 < maxAttempts ∧ maxAttempts < attempts + 1 then .failed .resourceExhausted
    else
      probeLoop maxAttempts probeCount rest (attempts + 1)
        (if o then probesSent + 1 else probesSent)

def poolKeyOfMetadata (md : SchedulingMetadata) : NodePoolKey :=
  { os := md.os, arch := md.arch, pool := md.pool, groupID := md.executorGroupId }

/--
enqueueTaskReservations: resolve the pool key from the scheduling metadata,
take NodeCount over the cached node list (propagating its error), register
the task in the pool's unclaimed-task set (best effort; in the sequential
embedding the Redis calls succeed), set probeCount = min(numReplicas,
nodeCount) and run the probe loop.
-/
def enqueueTaskReservations (st : Store) (md : SchedulingMetadata) (taskId : String)
    (taskSize : TaskSize) (nodes : List ExecutionNode) (R : ℚ) (nowUnix : Int)
    (opts : EnqueueOpts) (outcomes : List Bool) : ProbeResult × Store :=
  match NodeCount nodes R taskSize with
  | .error e => (.failed e, st)
  | .ok nodeCount =>
    let st1 := st.addUnclaimedTask (poolKeyOfMetadata md) taskId nowUnix
    let probeCount := minInt opts.numReplicas nodeCount
    (probeLoop opts.maxAttempts probeCount outcomes 0 0, st1)

/-!  ### External interfaces (§6)  -/

structure ScheduleTaskRequest where
  taskId : String
  metadata : Option SchedulingMetadata
  serializedTask : String
  deriving DecidableEq, Repr

/--
ScheduleTask: four required-field checks (each failing with
FailedPreconditionError in the source), then insertTask, then
enqueueTaskReservations with numReplicas = probesPerTask and
schedulerLocal = false.
-/
def ScheduleTask (st : Store) (req : ScheduleTaskRequest) (nodes : List ExecutionNode)
    (R : ℚ) (nowUsec nowUnix : Int) (outcomes : List Bool) : RpcResult × Store :=
  if req.taskId = "" then (.failed .failedPrecondition, st)
  else
    match req.metadata with
    | none => (.failed .failedPrecondition, st)
    | some md =>
      match md.taskSize with
      | none => (.failed .failedPrecondition, st)
      | some size =>
        if req.serializedTask = "" then (.failed .failedPrecondition, st)
        else
          match insertTask st req.taskId md req.serializedTask nowUsec with
          | (.error e, st1) => (.failed e, st1)
          | (.ok _, st1) =>
            let r := enqueueTaskReservations st1 md req.taskId size nodes R nowUnix
              { numReplicas := probesPerTask, maxAttempts := 0, alwaysScheduleLocally := false }
              outcomes
            (r.1.toRpc, r.2)

/--
The body of ReEnqueueTask below its short-circuit (source lines 1247-1276):
read the task; if attemptCount has reached the cap, delete the claimed task
and fail with ResourceExhausted; otherwise best-effort unclaim and dispatch
with numReplicas = probesPerTask, schedulerLocal = false.
-/
def reEnqueueTaskBody (st : Store) (taskId : String) (nodes : List ExecutionNode)
    (R : ℚ) (nowUnix : Int) (outcomes : List Bool) : RpcResult × Store :=
  if taskId = "" then (.failed .failedPrecondition, st)
  else
    match readTask st taskId with
    | .error e => (.failed e, st)
    | .ok task =>
      if maxTaskAttemptCount ≤ task.attemptCount then
        match deleteClaimedTask st taskId with
        | (.error e, st1) => (.failed e, st1)
        | (.ok _, st1) => (.failed .resourceExhausted, st1)
      else
        let u := unclaimTask st taskId  -- error ignored: fine if already unclaimed
        let r := enqueueTaskReservations u.2 task.metadata taskId
          (task.metadata.taskSize.getD { estimatedMemoryBytes := 0, estimatedMilliCpu := 0 })
          nodes R nowUnix
          { numReplicas := probesPerTask, maxAttempts := 0, alwaysScheduleLocally := false }
          outcomes
        (r.1.toRpc, r.2)

/--
ReEnqueueTask as it stands in the source: its first statement is an
unconditional short-circuit
(if true, log "TYLER: ReEnqueueTask was called but skipping.", return an
empty response and nil error), so every call returns success without
touching the store and the body below it is unreachable.
-/
def ReEnqueueTask (st : Store) (taskId : String) (nodes : List ExecutionNode)
    (R : ℚ) (nowUnix : Int) (outcomes : List Bool) : RpcResult × Store :=
  if true then (.ok, st)
  else reEnqueueTaskBody st taskId nodes R nowUnix outcomes

/-!  ### Lease controller (§4.5)  -/

def leaseInterval : Int := 10
def leaseGracePeriod : Int := 10

structure LeaseTaskRequest where
  taskId : String
  finalize : Bool
  /-- Time (seconds) at which stream.Recv returns this message. -/
  recvTime : Int
  deriving DecidableEq, Repr

structure LeaseTaskResponse where
  leaseDurationSeconds : Int
  serializedTask : Option String
  closedCleanly : Bool
  deriving DecidableEq, Repr

/-- What a run of the LeaseTask event loop leaves behind. -/
structure LeaseLoopOut where
  responses : List LeaseTaskResponse
  result : Except StatusCode Unit
  claimed : Bool
  store : Store
  finalTaskId : String
  deriving DecidableEq, Repr

/--
The LeaseTask event loop.  The request list holds the successfully received
client messages, ended by EOF; lastCheckin starts at stream-open time and is
set to the current time each time a response is sent (the model uses the
message's receive time, processing being instantaneous).  Each message is
validated (taskId set and sticky), checked against the lease window, claims
the task on the first message while unclaimed (returning the claim error on
failure), deletes the task on finalize while claimed (ignoring a delete
error), and answers with the lease duration, the payload on the claiming
message only, and closedCleanly = !claimed.
-/
def leaseLoop (st : Store) (reqs : List LeaseTaskRequest) (lastCheckin : Int)
    (claimed : Bool) (taskID : String) : LeaseLoopOut :=
  match reqs with
  | [] => ⟨[], .ok (), claimed, st, taskID⟩
  | req :: rest =>
    if req.taskId = "" ∨ (taskID ≠ "" ∧ req.taskId ≠ taskID) then
      ⟨[], .error .invalidArgument, claimed, st, taskID⟩
    else
      let tid := req.taskId
      if leaseInterval + leaseGracePeriod < req.recvTime - lastCheckin then
        ⟨[], .ok (), claimed, st, tid⟩
      else
        if claimed then
          let closing := req.finalize
          let d :=
            if closing then
              match deleteClaimedTask st tid with
              | (.ok _, s2) => (false, s2)
              | (.error _, _) => (true, st)
            else (true, st)
          let rsp : LeaseTaskResponse := ⟨leaseInterval, none, !d.1⟩
          if closing then ⟨[rsp], .ok (), d.1, d.2, tid⟩
          else
            let out := leaseLoop d.2 rest req.recvTime d.1 tid
            ⟨rsp :: out.responses, out.result, out.claimed, out.store, out.finalTaskId⟩
        else
          match claimTask st tid with
          | (.error e, st1) => ⟨[], .error e, false, st1, tid⟩
          | (.ok _, st1) =>
            match readTask st1 tid with
            | .error e => ⟨[], .error e, true, st1, tid⟩
            | .ok task =>
              -- remove from the unclaimed set when this scheduler has the pool
              let key := poolKeyOfMetadata task.metadata
              let st2 :=
                if key ∈ st1.pools then st1.removeUnclaimedTask key tid else st1
              let closing := req.finalize
              let d :=
                if closing then
                  match deleteClaimedTask st2 tid with
                  | (.ok _, s3) => (false, s3)
                  | (.error _, _) => (true, st2)
                else (true, st2)
              let rsp : LeaseTaskResponse := ⟨leaseInterval, some task.serializedTask, !d.1⟩
              if closing then ⟨[rsp], .ok (), d.1, d.2, tid⟩
              else
                let out := leaseLoop d.2 rest req.recvTime d.1 tid
                ⟨rsp :: out.responses, out.result, out.claimed, out.store, out.finalTaskId⟩

/--
LeaseTask: run the event loop from lastCheckin = stream-open time,
claimed = false, taskID = ""; the deferred function then calls
ReEnqueueTask iff the loop exited with the task still claimed (under a
detached finalization context), ignoring its error.  The Bool records
whether that deferred ReEnqueueTask call was made.
-/
def LeaseTask (st : Store) (reqs : List LeaseTaskRequest) (startTime : Int)
    (nodes : List ExecutionNode) (R : ℚ) (nowUnix : Int) (outcomes : List Bool) :
    LeaseLoopOut × Bool :=
  let out := leaseLoop st reqs startTime false ""
  if out.claimed then
    let r := ReEnqueueTask out.store out.finalTaskId nodes R nowUnix outcomes
    ({ out with store := r.2 }, true)
  else (out, false)

/-!  ## Theorems  -/

/-!  ### C2: claimTask  -/

/--
C2: Claim sets the claimed field and succeeds exactly when the task hash
exists and the claimed field is absent; otherwise it fails with NotFound;
and after every successful Claim the stored attemptCount is exactly one
greater than before the call.
-/
theorem claimTask_spec (st : Store) (t : String) :
    (∀ h, hLookup st.tasks (redisKeyForTask t) = some h → h.claimed = false →
        claimTask st t =
          (.ok (), st.setRow (redisKeyForTask t)
            { h with claimed := true, attemptCount := h.attemptCount + 1 })) ∧
    (hLookup st.tasks (redisKeyForTask t) = none →
        claimTask st t = (.error .notFound, st)) ∧
    (∀ h, hLookup st.tasks (redisKeyForTask t) = some h → h.claimed = true →
        claimTask st t = (.error .notFound, st)) := by
  refine ⟨?_, ?_, ?_⟩
  · intro h hl hc
    simp [claimTask, redisAcquireClaim, hl, hc, hIncrAttemptCount,
      hLookup_hSetRow_self, hSetRow_hSetRow, Store.setRow]
  · intro hl
    simp [claimTask, redisAcquireClaim, hl]
  · intro h hl hc
    simp [claimTask, redisAcquireClaim, hl, hc]

def c2md : SchedulingMetadata :=
  { os := "linux", arch := "x86", pool := "p", executorGroupId := "",
    taskSize := some { estimatedMemoryBytes := 100, estimatedMilliCpu := 50 } }

def c2row : TaskHash :=
  { taskProto := "a", schedulingMetadataProto := c2md, queuedAtUsec := 1,
    attemptCount := 3, claimed := false }

def c2st : Store := { tasks := [("task/t", c2row)], unclaimed := [], pools := [] }

/-- Witness for C2 at a concrete store: a task with attemptCount 3 and no
claim is claimed (attemptCount becomes 4); claiming a missing task and an
already-claimed task both fail with NotFound. -/
theorem claimTask_spec_witness :
    claimTask c2st "t" =
      (.ok (), c2st.setRow (redisKeyForTask "t")
        { c2row with claimed := true, attemptCount := c2row.attemptCount + 1 }) ∧
    claimTask { tasks := [], unclaimed := [], pools := [] } "t" =
      (.error .notFound, { tasks := [], unclaimed := [], pools := [] }) ∧
    claimTask { tasks := [("task/t", { c2row with claimed := true })], unclaimed := [], pools := [] } "t" =
      (.error .notFound, { tasks := [("task/t", { c2row with claimed := true })], unclaimed := [], pools := [] }) :=
  ⟨(claimTask_spec c2st "t").1 c2row (by decide) rfl,
   (claimTask_spec { tasks := [], unclaimed := [], pools := [] } "t").2.1 (by decide),
   (claimTask_spec { tasks := [("task/t", { c2row with claimed := true })], unclaimed := [], pools := [] } "t").2.2
     { c2row with claimed := true } (by decide) rfl⟩

/-!  ### C3: duplicate insert  -/

def c3st : Store := { tasks := [("task/t", c2row)], unclaimed := [], pools := [] }

/--
C3 counterexample: a second Insert for the existing id "t" does fail with
AlreadyExists, but it does NOT leave the stored row unchanged: HSET has
already overwritten the four data fields (here attemptCount drops from 3
back to 0 and the payload changes from "a" to "b") before the zero
new-field count is observed.
-/
theorem insertTask_second_mutates_cex :
    (insertTask c3st "t" c2md "b" 2).1 = .error .alreadyExists ∧
    (insertTask c3st "t" c2md "b" 2).2 ≠ c3st ∧
    hLookup (insertTask c3st "t" c2md "b" 2).2.tasks "task/t" =
      some { taskProto := "b", schedulingMetadataProto := c2md, queuedAtUsec := 2,
             attemptCount := 0, claimed := false } := by
  decide

/--
C3 amended: a second Insert for an existing id fails with AlreadyExists,
but before reporting the error it has already overwritten the stored
payload, metadata and queuedAt and reset attemptCount to 0; only the
claimed flag survives.
-/
theorem insertTask_existing_overwrites (st : Store) (t : String)
    (md : SchedulingMetadata) (ser : String) (now : Int) (old : TaskHash)
    (hl : hLookup st.tasks (redisKeyForTask t) = some old) :
    insertTask st t md ser now =
      (.error .alreadyExists,
        st.setRow (redisKeyForTask t)
          { taskProto := ser, schedulingMetadataProto := md, queuedAtUsec := now,
            attemptCount := 0, claimed := old.claimed }) := by
  simp [insertTask, hl]

/-- Witness for the amended C3 at the concrete duplicate insert. -/
theorem insertTask_existing_overwrites_witness :
    insertTask c3st "t" c2md "b" 2 =
      (.error .alreadyExists,
        c3st.setRow (redisKeyForTask "t")
          { taskProto := "b", schedulingMetadataProto := c2md, queuedAtUsec := 2,
            attemptCount := 0, claimed := c2row.claimed }) :=
  insertTask_existing_overwrites c3st "t" c2md "b" 2 c2row (by decide)

/-!  ### C1: ReEnqueueTask at the attempt cap  -/

def c1row : TaskHash :=
  { taskProto := "a", schedulingMetadataProto := c2md, queuedAtUsec := 1,
    attemptCount := 5, claimed := true }

def c1st : Store := { tasks := [("task/t", c1row)], unclaimed := [], pools := [] }

/--
C1 (code bug): on a store holding task "t" with attemptCount = 5 and
claimed set, ReEnqueueTask returns success and leaves the store — the task
included — untouched, because of the unconditional debug short-circuit at
the top of the function; the claim (and the body below the short-circuit)
expect the claimed task to be deleted and the call to fail with
ResourceExhausted.
-/
theorem reEnqueueTask_skips_at_cap :
    ReEnqueueTask c1st "t" [] 1 0 [] = (.ok, c1st) ∧
    hLookup (ReEnqueueTask c1st "t" [] 1 0 []).2.tasks "task/t" = some c1row := by
  decide

/-- The unreachable body below the short-circuit does implement the claim:
at attemptCount = 5 it deletes the claimed task and fails with
ResourceExhausted. -/
theorem reEnqueueTaskBody_at_cap :
    reEnqueueTaskBody c1st "t" [] 1 0 [] =
      (.failed .resourceExhausted, { tasks := [], unclaimed := [], pools := [] }) := by
  decide

/-!  ### C4: ScheduleTask validation  -/

/--
C4 counterexample: a ScheduleTask request with an empty taskId fails with
FailedPrecondition, not InvalidArgument as claimed (the source uses
status.FailedPreconditionError for all four required-field checks).
-/
theorem scheduleTask_invalid_code_cex :
    (ScheduleTask c3st { taskId := "", metadata := none, serializedTask := "" }
        [] 1 0 0 []).1 = .failed .failedPrecondition ∧
    RpcResult.failed .failedPrecondition ≠ RpcResult.failed .invalidArgument := by
  decide

/--
C4 amended: a ScheduleTask request in which taskId, metadata,
metadata.taskSize, or serializedTask is empty fails with FailedPrecondition
(not InvalidArgument) and neither persists nor dispatches anything: the
store (task rows and unclaimed sets) is returned unchanged.
-/
theorem scheduleTask_missing_fields (st : Store) (req : ScheduleTaskRequest)
    (nodes : List ExecutionNode) (R : ℚ) (nowUsec nowUnix : Int) (outcomes : List Bool)
    (h : req.taskId = "" ∨ req.metadata = none ∨
         (∃ md, req.metadata = some md ∧ md.taskSize = none) ∨ req.serializedTask = "") :
    ScheduleTask st req nodes R nowUsec nowUnix outcomes =
      (.failed .failedPrecondition, st) := by
  by_cases h1 : req.taskId = ""
  · simp [ScheduleTask, h1]
  · rcases h with h | h | ⟨md, hm, hs⟩ | h
    · exact absurd h h1
    · simp [ScheduleTask, h1, h]
    · simp [ScheduleTask, h1, hm, hs]
    · cases hm : req.metadata with
      | none => simp [ScheduleTask, h1, hm]
      | some md =>
        cases hts : md.taskSize with
        | none => simp [ScheduleTask, h1, hm, hts]
        | some size => simp [ScheduleTask, h1, hm, hts, h]

/-- Witness for the amended C4: a request with taskId set but no metadata
is rejected with FailedPrecondition and the store is unchanged. -/
theorem scheduleTask_missing_fields_witness :
    ScheduleTask c3st { taskId := "u", metadata := none, serializedTask := "x" }
        [] 1 0 0 [] = (.failed .failedPrecondition, c3st) :=
  scheduleTask_missing_fields c3st
    { taskId := "u", metadata := none, serializedTask := "x" } [] 1 0 0 []
    (Or.inr (Or.inl rfl))

/-!  ### C5: NodeCount / FitCount  -/

/-- With nonnegative capacities and ratio, the truncating per-node fit test
of the source coincides with the exact rational comparison of the spec. -/
theorem nodeFits_iff (R : ℚ) (size : TaskSize) (n : ExecutionNode)
    (hR : 0 ≤ R) (hm : 0 ≤ n.assignableMemoryBytes) (hc : 0 ≤ n.assignableMilliCpu) :
    nodeFits R size n =
      decide ((size.estimatedMemoryBytes : ℚ) ≤ (n.assignableMemoryBytes : ℚ) * R ∧
              (size.estimatedMilliCpu : ℚ) ≤ (n.assignableMilliCpu : ℚ) * R) := by
  have hm' : (0 : ℚ) ≤ (n.assignableMemoryBytes : ℚ) * R :=
    mul_nonneg (by exact_mod_cast hm) hR
  have hc' : (0 : ℚ) ≤ (n.assignableMilliCpu : ℚ) * R :=
    mul_nonneg (by exact_mod_cast hc) hR
  unfold nodeFits goTrunc
  rw [if_pos hm', if_pos hc']
  have h1 : decide (size.estimatedMemoryBytes ≤ Rat.floor ((n.assignableMemoryBytes : ℚ) * R)) =
      decide ((size.estimatedMemoryBytes : ℚ) ≤ (n.assignableMemoryBytes : ℚ) * R) :=
    decide_eq_decide.mpr Rat.le_floor
  have h2 : decide (size.estimatedMilliCpu ≤ Rat.floor ((n.assignableMilliCpu : ℚ) * R)) =
      decide ((size.estimatedMilliCpu : ℚ) ≤ (n.assignableMilliCpu : ℚ) * R) :=
    decide_eq_decide.mpr Rat.le_floor
  rw [h1, h2]
  simp

/--
C5: over the cached node list, with nonnegative executor capacities and a
nonnegative over-subscription ratio R, NodeCount returns exactly the number
of executors whose assignable memory times R is at least the task's memory
and whose assignable milli-CPU times R is at least the task's milli-CPU,
and fails with Unavailable exactly when the pool is empty or no executor
fits.
-/
theorem nodeCount_spec (nodes : List ExecutionNode) (R : ℚ) (size : TaskSize)
    (hR : 0 ≤ R)
    (hmem : ∀ n ∈ nodes, 0 ≤ n.assignableMemoryBytes)
    (hcpu : ∀ n ∈ nodes, 0 ≤ n.assignableMilliCpu) :
    NodeCount nodes R size =
      if nodes.length = 0 ∨ specFitCount nodes R size = 0 then .error .unavailable
      else .ok (specFitCount nodes R size) := by
  have hfit : nodes.countP (fun n => nodeFits R size n) = specFitCount nodes R size := by
    unfold specFitCount
    refine List.countP_congr ?_
    intro n hn
    rw [nodeFits_iff R size n hR (hmem n hn) (hcpu n hn)]
  unfold NodeCount
  rw [hfit]
  by_cases h0 : nodes.length = 0
  · simp [h0]
  · by_cases hf : specFitCount nodes R size = 0 <;> simp [h0, hf]

def c5nodes : List ExecutionNode :=
  [{ executorID := "e1", assignableMemoryBytes := 100, assignableMilliCpu := 100,
     schedulerHostPort := "h" },
   { executorID := "e2", assignableMemoryBytes := 200, assignableMilliCpu := 100,
     schedulerHostPort := "h" }]

def c5size : TaskSize := { estimatedMemoryBytes := 100, estimatedMilliCpu := 50 }

/-- Witness for C5 with R = 4/5: of the two executors only the one with 200
memory bytes fits a (100 mem, 50 milli-CPU) task, so NodeCount returns 1. -/
theorem nodeCount_spec_witness :
    (NodeCount c5nodes (4/5 : ℚ) c5size =
      if c5nodes.length = 0 ∨ specFitCount c5nodes (4/5 : ℚ) c5size = 0 then .error .unavailable
      else .ok (specFitCount c5nodes (4/5 : ℚ) c5size)) ∧
    NodeCount c5nodes (4/5 : ℚ) c5size = .ok 1 := by
  refine ⟨nodeCount_spec c5nodes (4/5 : ℚ) c5size (by norm_num) (by decide) (by decide), ?_⟩
  have hf : ∀ q : ℚ, Rat.floor q = ⌊q⌋ := fun _ => rfl
  simp only [NodeCount, c5nodes, c5size, nodeFits, goTrunc, hf,
    List.countP_cons, List.countP_nil, List.length_cons, List.length_nil]
  norm_num

/-!  ### C6: dispatch probe counting  -/

/-- If the probe loop completes, it completes with probesSent equal to the
probe count (the loop condition is an equality on exit since probesSent
grows by steps of 1 from below). -/
theorem probeLoop_completed_eq (outs : List Bool) :
    ∀ m p a s n, s ≤ p → probeLoop m p outs a s = .completed n → n = p := by
  induction outs with
  | nil =>
    intro m p a s n hs hp
    unfold probeLoop at hp
    by_cases h1 : p ≤ s
    · rw [if_pos h1] at hp; cases hp; omega
    · rw [if_neg h1] at hp
      by_cases h2 : 0 < m ∧ m < a + 1
      · rw [if_pos h2] at hp; cases hp
      · rw [if_neg h2] at hp; cases hp
  | cons o rest ih =>
    intro m p a s n hs hp
    unfold probeLoop at hp
    by_cases h1 : p ≤ s
    · rw [if_pos h1] at hp; cases hp; omega
    · rw [if_neg h1] at hp
      by_cases h2 : 0 < m ∧ m < a + 1
      · rw [if_pos h2] at hp; cases hp
      · rw [if_neg h2] at hp
        exact ih m p (a + 1) (if o then s + 1 else s) n (by split_ifs <;> omega) hp

/-- If maxAttempts is set and the first maxAttempts - attempts oracle
outcomes do not bring probesSent up to the probe count, the loop fails with
ResourceExhausted. -/
theorem probeLoop_exhausted (outs : List Bool) :
    ∀ m p a s, 0 < m → a ≤ m → m - a ≤ outs.length →
      s + ((outs.take (m - a)).count true) < p →
      probeLoop m p outs a s = .failed .resourceExhausted := by
  induction outs with
  | nil =>
    intro m p a s hm ham hlen hcount
    simp only [List.length_nil, Nat.le_zero] at hlen
    simp only [List.take_nil, List.count_nil, Nat.add_zero] at hcount
    unfold probeLoop
    rw [if_neg (by omega), if_pos ⟨hm, by omega⟩]
  | cons o rest ih =>
    intro m p a s hm ham hlen hcount
    by_cases hae : a = m
    · subst hae
      simp only [Nat.sub_self, List.take_zero, List.count_nil, Nat.add_zero] at hcount
      unfold probeLoop
      rw [if_neg (by omega), if_pos ⟨hm, by omega⟩]
    · have halt : a < m := lt_of_le_of_ne ham hae
      have h1 : m - a = (m - (a + 1)) + 1 := by omega
      rw [h1, List.take_succ_cons, List.count_cons] at hcount
      simp only [List.length_cons] at hlen
      unfold probeLoop
      rw [if_neg (by cases o <;> simp at hcount <;> omega),
          if_neg (by rintro ⟨_, hlt⟩; omega)]
      refine ih m p (a + 1) (if o then s + 1 else s) hm (by omega) (by omega) ?_
      cases o <;> simp at hcount ⊢ <;> omega

/--
C6: whenever the node count is nc, a dispatch that completes has sent
exactly probeCount = min(numReplicas, nodeCount) successful probes; and
when maxAttempts is set and the first maxAttempts attempts contain fewer
than probeCount successes (so the attempt counter exceeds maxAttempts
before probeCount successes are reached), the dispatch fails with
ResourceExhausted.
-/
theorem enqueue_probe_spec (st : Store) (md : SchedulingMetadata) (taskId : String)
    (size : TaskSize) (nodes : List ExecutionNode) (R : ℚ) (nowUnix : Int)
    (opts : EnqueueOpts) (outcomes : List Bool) :
    (∀ nc n, NodeCount nodes R size = .ok nc →
        (enqueueTaskReservations st md taskId size nodes R nowUnix opts outcomes).1 =
          .completed n →
        n = minInt opts.numReplicas nc) ∧
    (∀ nc, NodeCount nodes R size = .ok nc → 0 < opts.maxAttempts →
        opts.maxAttempts ≤ outcomes.length →
        ((outcomes.take opts.maxAttempts).count true) < minInt opts.numReplicas nc →
        (enqueueTaskReservations st md taskId size nodes R nowUnix opts outcomes).1 =
          .failed .resourceExhausted) := by
  constructor
  · intro nc n hnc hcomp
    unfold enqueueTaskReservations at hcomp
    rw [hnc] at hcomp
    exact probeLoop_completed_eq outcomes opts.maxAttempts _ 0 0 n (Nat.zero_le _) hcomp
  · intro nc hnc hm hlen hcount
    unfold enqueueTaskReservations
    rw [hnc]
    refine probeLoop_exhausted outcomes opts.maxAttempts (minInt opts.numReplicas nc) 0 0
      hm (Nat.zero_le _) ?_ ?_
    · simpa using hlen
    · simpa using hcount

def c6node : ExecutionNode :=
  { executorID := "e1", assignableMemoryBytes := 100, assignableMilliCpu := 100,
    schedulerHostPort := "h" }

def c6size : TaskSize := { estimatedMemoryBytes := 50, estimatedMilliCpu := 50 }

/-- NodeCount of the single witness node at R = 1. -/
theorem c6_nodeCount_eval : NodeCount [c6node] (1 : ℚ) c6size = .ok 1 := by
  have hf : ∀ q : ℚ, Rat.floor q = ⌊q⌋ := fun _ => rfl
  simp only [NodeCount, c6node, c6size, nodeFits, goTrunc, hf,
    List.countP_cons, List.countP_nil, List.length_cons, List.length_nil]
  norm_num

/-- Witness for C6: with one fitting node, numReplicas = 1 and a single
successful probe the loop completes with min(1, 1) = 1 probe; with
maxAttempts = 2 and two failing probes it fails with ResourceExhausted. -/
theorem enqueue_probe_spec_witness :
    (1 : Nat) = minInt 1 1 ∧
    (enqueueTaskReservations c2st c2md "t" c6size [c6node] 1 0
        { numReplicas := 1, maxAttempts := 2, alwaysScheduleLocally := false }
        [false, false]).1 = .failed .resourceExhausted :=
  ⟨(enqueue_probe_spec c2st c2md "t" c6size [c6node] 1 0
      { numReplicas := 1, maxAttempts := 0, alwaysScheduleLocally := false } [true]).1
      1 1 c6_nodeCount_eval
      (by unfold enqueueTaskReservations; rw [c6_nodeCount_eval]; rfl),
   (enqueue_probe_spec c2st c2md "t" c6size [c6node] 1 0
      { numReplicas := 1, maxAttempts := 2, alwaysScheduleLocally := false } [false, false]).2
      1 c6_nodeCount_eval (by decide) (by decide) (by decide)⟩

/-!  ### C7: unclaimed-task set bound  -/

/-- AddUnclaimedTask always leaves exactly the newest-ranked at most 10000
members: it equals dropping the (length - 10000) lowest-ranked members of
the post-ZADD set (dropping none when the bound is not exceeded). -/
theorem addUnclaimedTask_eq_drop (set : List (Int × String)) (taskID : String) (now : Int) :
    AddUnclaimedTask set taskID now =
      (zAdd set now taskID).drop ((zAdd set now taskID).length - 10000) := by
  simp only [AddUnclaimedTask, zCard, zRemRangeByRankOldest, maxUnclaimedTasksTracked]
  split_ifs with h
  · have harg : ((((zAdd set now taskID).length : Int)) - 10000 - 1 + 1).toNat
        = (zAdd set now taskID).length - 10000 := by omega
    rw [harg]
  · have h0 : (zAdd set now taskID).length - 10000 = 0 := by omega
    rw [h0, List.drop_zero]

/-- ZADD preserves sortedness of the sorted set. -/
theorem zAdd_sorted (set : List (Int × String)) (score : Int) (member : String)
    (h : List.Sorted zLe set) : List.Sorted zLe (zAdd set score member) :=
  List.Sorted.orderedInsert (score, member) _ (h.sublist (List.filter_sublist set))

/--
C7: after AddUnclaimedTask completes (ZADD followed by the trim step) the
unclaimed-task sorted set has at most 10000 members; on a sorted set the
result stays sorted and every member the trim removed (the lowest-ranked
prefix of the post-ZADD set) has a score no greater than every surviving
member's score, i.e. the oldest-scored members are removed first.
-/
theorem addUnclaimedTask_spec (set : List (Int × String)) (taskID : String) (now : Int) :
    (AddUnclaimedTask set taskID now).length ≤ 10000 ∧
    (List.Sorted zLe set →
      List.Sorted zLe (AddUnclaimedTask set taskID now) ∧
      ∀ x ∈ (zAdd set now taskID).take ((zAdd set now taskID).length - 10000),
        ∀ y ∈ AddUnclaimedTask set taskID now, x.1 ≤ y.1) := by
  rw [addUnclaimedTask_eq_drop]
  refine ⟨?_, ?_⟩
  · rw [List.length_drop]; omega
  · intro hsorted
    have hs : List.Sorted zLe (zAdd set now taskID) := zAdd_sorted set now taskID hsorted
    refine ⟨hs.sublist (List.drop_sublist _ _), ?_⟩
    intro x hx y hy
    have happ : ((zAdd set now taskID).take ((zAdd set now taskID).length - 10000) ++
        (zAdd set now taskID).drop ((zAdd set now taskID).length - 10000)).Pairwise zLe := by
      rw [List.take_append_drop]; exact hs
    have hrel := (List.pairwise_append.mp happ).2.2 x hx y hy
    rcases hrel with h | ⟨h, _⟩
    · exact le_of_lt h
    · exact le_of_eq h

/-- Witness for C7 at a concrete sorted one-element set. -/
theorem addUnclaimedTask_spec_witness :
    (AddUnclaimedTask [((1 : Int), "a")] "b" 2).length ≤ 10000 ∧
    List.Sorted zLe (AddUnclaimedTask [((1 : Int), "a")] "b" 2) :=
  ⟨(addUnclaimedTask_spec [((1 : Int), "a")] "b" 2).1,
   ((addUnclaimedTask_spec [((1 : Int), "a")] "b" 2).2 (by decide)).1⟩

/-!  ### C8: payload sent exactly once  -/

/-- Once the stream is in the claimed state, no later response carries the
serialized task payload. -/
theorem leaseLoop_claimed_no_payload :
    ∀ (reqs : List LeaseTaskRequest) (st : Store) (lc : Int) (tid : String) r,
      r ∈ (leaseLoop st reqs lc true tid).responses → r.serializedTask = none := by
  intro reqs
  induction reqs with
  | nil =>
    intro st lc tid r hr
    simp [leaseLoop] at hr
  | cons req rest ih =>
    intro st lc tid r hr
    unfold leaseLoop at hr
    by_cases h1 : req.taskId = "" ∨ (tid ≠ "" ∧ req.taskId ≠ tid)
    · rw [if_pos h1] at hr; simp at hr
    · rw [if_neg h1] at hr
      by_cases h2 : leaseInterval + leaseGracePeriod < req.recvTime - lc
      · rw [if_pos h2] at hr; simp at hr
      · rw [if_neg h2] at hr
        by_cases hf : req.finalize
        · rcases hdel : deleteClaimedTask st req.taskId with ⟨res, s2⟩
          cases res with
          | ok u =>
            simp [hf, hdel] at hr
            rw [hr]
          | error e =>
            simp [hf, hdel] at hr
            rw [hr]
        · simp [hf] at hr
          rcases hr with hr | hr
          · rw [hr]
          · exact ih _ _ _ r hr

/-- From the unclaimed state, the head response of the loop (when there is
one) is the one answering the message on which Claim succeeded and carries
the payload; every response after it carries none. -/
theorem leaseLoop_first_payload (reqs : List LeaseTaskRequest) (st : Store) (lc : Int)
    (tid : String) :
    (∀ r ∈ (leaseLoop st reqs lc false tid).responses.tail, r.serializedTask = none) ∧
    (∀ r0, (leaseLoop st reqs lc false tid).responses.head? = some r0 →
      r0.serializedTask ≠ none) := by
  cases reqs with
  | nil => simp [leaseLoop]
  | cons req rest =>
    unfold leaseLoop
    by_cases h1 : req.taskId = "" ∨ (tid ≠ "" ∧ req.taskId ≠ tid)
    · rw [if_pos h1]; simp
    · rw [if_neg h1]
      by_cases h2 : leaseInterval + leaseGracePeriod < req.recvTime - lc
      · rw [if_pos h2]; simp
      · rw [if_neg h2]
        rcases hclaim : claimTask st req.taskId with ⟨cres, st1⟩
        cases cres with
        | error e => simp [hclaim]
        | ok u =>
          cases hread : readTask st1 req.taskId with
          | error e => simp [hclaim, hread]
          | ok task =>
            by_cases hf : req.finalize
            · simp [hclaim, hread, hf]
            · simp [hclaim, hread, hf]
              intro r hr
              exact leaseLoop_claimed_no_payload rest _ _ _ r hr

/--
C8: within a single LeaseTask stream, the payload is included in exactly
one response — the head response, the one answering the first message on
which Claim succeeded (no response at all is produced before a successful
claim) — and every later response on the stream carries no payload (lease
duration only).
-/
theorem leaseTask_payload_once (st : Store) (reqs : List LeaseTaskRequest)
    (startTime : Int) (nodes : List ExecutionNode) (R : ℚ) (nowUnix : Int)
    (outcomes : List Bool) :
    (∀ r ∈ (LeaseTask st reqs startTime nodes R nowUnix outcomes).1.responses.tail,
      r.serializedTask = none) ∧
    (∀ r0, (LeaseTask st reqs startTime nodes R nowUnix outcomes).1.responses.head? = some r0 →
      r0.serializedTask ≠ none) := by
  have hbase := leaseLoop_first_payload reqs st startTime ""
  unfold LeaseTask
  by_cases hcl : (leaseLoop st reqs startTime false "").claimed
  · rw [if_pos hcl]
    exact hbase
  · rw [if_neg hcl]
    exact hbase

def c8req1 : LeaseTaskRequest := { taskId := "t", finalize := false, recvTime := 1 }
def c8req2 : LeaseTaskRequest := { taskId := "t", finalize := true, recvTime := 2 }

/-- Witness for C8: a two-message stream (claim, then finalize) produces a
first response with the payload and a second without it. -/
theorem leaseTask_payload_once_witness :
    ({ leaseDurationSeconds := 10, serializedTask := none, closedCleanly := true } :
        LeaseTaskResponse).serializedTask = none ∧
    ({ leaseDurationSeconds := 10, serializedTask := some "a", closedCleanly := false } :
        LeaseTaskResponse).serializedTask ≠ none :=
  ⟨(leaseTask_payload_once c2st [c8req1, c8req2] 0 [] 1 0 []).1 _ (by decide),
   (leaseTask_payload_once c2st [c8req1, c8req2] 0 [] 1 0 []).2 _ (by decide)⟩

/-!  ### C9: empty taskId on the lease stream  -/

/--
C9: a client message with an empty taskId makes the lease stream fail with
InvalidArgument immediately: at any point of the stream (any claimed state,
sticky taskId and checkin time) the loop stops on that message with no
response and the store exactly as it was (no claim, no read, no
re-enqueue); in particular a stream whose first message has an empty taskId
fails with InvalidArgument, leaves the store unchanged and never invokes
the deferred ReEnqueueTask path.
-/
theorem leaseTask_empty_taskId (st : Store) (lc : Int) (cl : Bool) (tid : String)
    (req : LeaseTaskRequest) (rest : List LeaseTaskRequest) (startTime nowUnix : Int)
    (nodes : List ExecutionNode) (R : ℚ) (outcomes : List Bool)
    (h : req.taskId = "") :
    leaseLoop st (req :: rest) lc cl tid =
      { responses := [], result := .error .invalidArgument, claimed := cl,
        store := st, finalTaskId := tid } ∧
    LeaseTask st (req :: rest) startTime nodes R nowUnix outcomes =
      ({ responses := [], result := .error .invalidArgument, claimed := false,
         store := st, finalTaskId := "" }, false) := by
  have hloop : ∀ (st' : Store) (lc' : Int) (cl' : Bool) (tid' : String),
      leaseLoop st' (req :: rest) lc' cl' tid' =
        { responses := [], result := .error .invalidArgument, claimed := cl',
          store := st', finalTaskId := tid' } := by
    intro st' lc' cl' tid'
    unfold leaseLoop
    rw [if_pos (Or.inl h)]
  refine ⟨hloop st lc cl tid, ?_⟩
  unfold LeaseTask
  rw [hloop st startTime false ""]
  rfl

/-- Witness for C9: a stream whose first (and only) message has an empty
taskId fails with InvalidArgument against a store holding one task, which
is left untouched; the deferred re-enqueue is not invoked. -/
theorem leaseTask_empty_taskId_witness :
    LeaseTask c2st [{ taskId := "", finalize := false, recvTime := 1 }] 0 [] 1 0 [] =
      ({ responses := [], result := .error .invalidArgument, claimed := false,
         store := c2st, finalTaskId := "" }, false) :=
  (leaseTask_empty_taskId c2st 0 false ""
    { taskId := "", finalize := false, recvTime := 1 } [] 0 0 [] 1 [] rfl).2

/-!  ### C10: claim failure on the lease stream  -/

/-- When the acquire script cannot claim (missing hash or claimed already
set), claimTask fails with NotFound and leaves the store unchanged. -/
theorem claimTask_fails (st : Store) (t : String)
    (h : ∀ hh, hLookup st.tasks (redisKeyForTask t) = some hh → hh.claimed = true) :
    claimTask st t = (.error .notFound, st) := by
  unfold claimTask redisAcquireClaim
  cases hl : hLookup st.tasks (redisKeyForTask t) with
  | none => simp [hl]
  | some hh =>
    have hc := h hh hl
    simp [hl, hc]

/--
C10: when Claim fails on the (first) lease-stream message — the task is
missing or already claimed — the stream ends returning that NotFound error
with the claimed flag still false, so the deferred abandonment path does
not invoke ReEnqueueTask, no response is sent, and the task's stored state
is completely unchanged.
-/
theorem leaseTask_claim_failure (st : Store) (req : LeaseTaskRequest)
    (rest : List LeaseTaskRequest) (startTime nowUnix : Int)
    (nodes : List ExecutionNode) (R : ℚ) (outcomes : List Bool)
    (h1 : req.taskId ≠ "")
    (h2 : req.recvTime - startTime ≤ leaseInterval + leaseGracePeriod)
    (h3 : ∀ hh, hLookup st.tasks (redisKeyForTask req.taskId) = some hh → hh.claimed = true) :
    LeaseTask st (req :: rest) startTime nodes R nowUnix outcomes =
      ({ responses := [], result := .error .notFound, claimed := false,
         store := st, finalTaskId := req.taskId }, false) := by
  have hloop : leaseLoop st (req :: rest) startTime false "" =
      { responses := [], result := .error .notFound, claimed := false,
        store := st, finalTaskId := req.taskId } := by
    unfold leaseLoop
    rw [if_neg (by simp [h1]), if_neg (not_lt.mpr h2)]
    simp [claimTask_fails st req.taskId h3]
  unfold LeaseTask
  rw [hloop]
  rfl

/-- Witness for C10: claiming on an empty store (the task does not exist)
ends the stream with NotFound, claimed still false, no re-enqueue and the
store unchanged. -/
theorem leaseTask_claim_failure_witness :
    LeaseTask { tasks := [], unclaimed := [], pools := [] }
        [{ taskId := "t", finalize := false, recvTime := 1 }] 0 [] 1 0 [] =
      ({ responses := [], result := .error .notFound, claimed := false,
         store := { tasks := [], unclaimed := [], pools := [] }, finalTaskId := "t" }, false) :=
  leaseTask_claim_failure { tasks := [], unclaimed := [], pools := [] }
    { taskId := "t", finalize := false, recvTime := 1 } [] 0 0 [] 1 []
    (by decide) (by decide) (by intro hh hl; simp [hLookup] at hl)

end SchedulerServer
